import Mathlib

/-!
# Verification of the `sar_drift_converter` outlier-classification engine

This file gives a shallow embedding of the outlier engine of
`src/util.py` (`outlier_search`, `circular_mean`, `circular_std`) and
proves/refutes the frozen claims about it.

Modelling decisions:

* Machine floats are modelled two ways.  The convergence-loop model works
  over `Frac`, exact integer fractions (kernel-computable, so that
  concrete runs of the loop can be settled by `decide`); the handful of
  irrational primitives the loop calls (`np.sqrt`, `np.sin`, `np.cos`,
  `np.arctan2`, `np.log`, `np.pi`) are collected in a `RealOps`
  parameter, so every structural theorem about the loop holds for *any*
  interpretation of those primitives, in particular for the real IEEE
  ones.  Concrete runs instantiate `RealOps` with `ratOps`, explicit
  rational approximations (fuelled Newton square root exact to nine
  decimal places, truncated power series for the trigonometric
  functions); every concrete input used below only ever hits these
  primitives at arguments where the approximation is exact (`0`, `1`,
  perfect squares) or where the compared z-scores are several tenths
  away from the `3` threshold, far beyond the approximation error.
* `NaN` is modelled as `Option.none`; NumPy's `NaN`-propagation
  (`np.nanmean` ignores `NaN`s, arithmetic on `NaN` yields `NaN`,
  `NaN > 3` is `False`) is explicit in the definitions.
* The two pure circular-statistics functions, whose claims (C8, C9) are
  about real-number values, are additionally embedded over `ℝ`
  (`circular_mean`, `circular_std`) and settled with real analysis.
-/

namespace SarDrift

/-- Exact fraction `num / den`.  All constructors below keep `den`
positive, and the model never divides by a value it has not checked to
be nonzero, mirroring the guards in `outlier_search`.  Unlike Mathlib's
`ℚ` it performs no gcd normalisation, so every operation reduces inside
the kernel and `decide` can evaluate whole runs of the engine. -/
structure Frac where
  num : ℤ
  den : ℤ
deriving DecidableEq, Repr

namespace Frac

def ofInt (n : ℤ) : Frac := ⟨n, 1⟩

def add (a b : Frac) : Frac := ⟨a.num * b.den + b.num * a.den, a.den * b.den⟩

def sub (a b : Frac) : Frac := ⟨a.num * b.den - b.num * a.den, a.den * b.den⟩

def mul (a b : Frac) : Frac := ⟨a.num * b.num, a.den * b.den⟩

/-- Division, normalising the sign so the denominator stays positive
whenever the divisor is nonzero. -/
def div (a b : Frac) : Frac :=
  let n := a.num * b.den
  let d := a.den * b.num
  if d < 0 then ⟨-n, -d⟩ else ⟨n, d⟩

def fabs (a : Frac) : Frac := ⟨|a.num|, a.den⟩

/-- Value comparison `a ≤ b` by cross multiplication (denominators are
positive by construction). -/
def ble (a b : Frac) : Bool := decide (a.num * b.den ≤ b.num * a.den)

/-- Value comparison `a < b`. -/
def blt (a b : Frac) : Bool := decide (a.num * b.den < b.num * a.den)

/-- Value test against zero (NumPy's `x == 0`). -/
def isZero (a : Frac) : Bool := decide (a.num = 0)

/-- Floor to an integer (denominator positive). -/
def floor (a : Frac) : ℤ := a.num.fdiv a.den

/-- Round to the nearest integer, ties to even — the IEEE rule used by
`np.round`. -/
def roundHalfEven (a : Frac) : ℤ :=
  let f := a.floor
  let r := a.sub (ofInt f)
  if blt r ⟨1, 2⟩ then f
  else if blt ⟨1, 2⟩ r then f + 1
  else if f % 2 = 0 then f else f + 1

/-- `np.round(x, 3)`: round to three decimal places. -/
def round3 (a : Frac) : Frac := ⟨roundHalfEven (a.mul ⟨1000, 1⟩), 1000⟩

/-- `np.clip(a, lo, hi)` = `min(max(a, lo), hi)`. -/
def fclip (a lo hi : Frac) : Frac :=
  let m := if ble a lo then lo else a
  if ble hi m then hi else m

end Frac

/-- One Newton step for the integer square root, with explicit fuel so
the recursion is structural and kernel-reducible. -/
def isqrtAux : ℕ → ℤ → ℤ → ℤ
  | 0, _, x => x
  | fuel + 1, n, x =>
    let next := (x + n.fdiv x).fdiv 2
    if next < x then isqrtAux fuel n next else x

/-- Integer square root by fuelled Newton iteration (exact on perfect
squares; `0` on nonpositive input). -/
def isqrt (n : ℤ) : ℤ := if n ≤ 0 then 0 else isqrtAux 200 n n

/-- Rational `np.sqrt`: fixed-point square root, exact to nine decimal
places (and exact on perfect squares with denominator dividing `10^9`). -/
def fsqrt (a : Frac) : Frac := ⟨isqrt ((a.mul ⟨10 ^ 18, 1⟩).floor), 10 ^ 9⟩

/-- Rational `np.sin` by truncated Taylor series (exact at `0`). -/
def fsin (a : Frac) : Frac :=
  let a2 := a.mul a
  let a3 := a2.mul a
  let a5 := a3.mul a2
  let a7 := a5.mul a2
  ((a.sub (a3.div (Frac.ofInt 6))).add (a5.div (Frac.ofInt 120))).sub
    (a7.div (Frac.ofInt 5040))

/-- Rational `np.cos` by truncated Taylor series (exact at `0`). -/
def fcos (a : Frac) : Frac :=
  let a2 := a.mul a
  let a4 := a2.mul a2
  let a6 := a4.mul a2
  (((Frac.ofInt 1).sub (a2.div (Frac.ofInt 2))).add (a4.div (Frac.ofInt 24))).sub
    (a6.div (Frac.ofInt 720))

/-- Rational `np.log` by the truncated `atanh` series around `1`
(exact at `1`, where the engine's bearing path evaluates it whenever all
bearings agree). -/
def flog (a : Frac) : Frac :=
  let t := (a.sub (Frac.ofInt 1)).div (a.add (Frac.ofInt 1))
  let t2 := t.mul t
  let t3 := t2.mul t
  let t5 := t3.mul t2
  let t7 := t5.mul t2
  (Frac.ofInt 2).mul
    (((t.add (t3.div (Frac.ofInt 3))).add (t5.div (Frac.ofInt 5))).add
      (t7.div (Frac.ofInt 7)))

/-- Rational `arctan` by truncated Taylor series (exact at `0`). -/
def fatan (t : Frac) : Frac :=
  let t2 := t.mul t
  let t3 := t2.mul t
  let t5 := t3.mul t2
  let t7 := t5.mul t2
  ((t.sub (t3.div (Frac.ofInt 3))).add (t5.div (Frac.ofInt 5))).sub
    (t7.div (Frac.ofInt 7))

/-- Rational approximation of `np.pi`. -/
def fpi : Frac := ⟨3141592653589793, 10 ^ 15⟩

/-- Rational `np.arctan2` with the standard quadrant correction
(exact at `(0, x)` for `x > 0`). -/
def fatan2 (y x : Frac) : Frac :=
  if Frac.blt (Frac.ofInt 0) x then fatan (y.div x)
  else if Frac.blt x (Frac.ofInt 0) then
    (if Frac.ble (Frac.ofInt 0) y then (fatan (y.div x)).add fpi
     else (fatan (y.div x)).sub fpi)
  else if Frac.blt (Frac.ofInt 0) y then fpi.div (Frac.ofInt 2)
  else if Frac.blt y (Frac.ofInt 0) then (Frac.ofInt 0).sub (fpi.div (Frac.ofInt 2))
  else Frac.ofInt 0

/-- The irrational primitives `outlier_search` calls.  The structural
theorems below hold for every interpretation; concrete runs use
`ratOps`. -/
structure RealOps where
  sqrt : Frac → Frac
  sin : Frac → Frac
  cos : Frac → Frac
  atan2 : Frac → Frac → Frac
  log : Frac → Frac
  pi : Frac

/-- The executable rational interpretation of the primitives. -/
def ratOps : RealOps where
  sqrt := fsqrt
  sin := fsin
  cos := fcos
  atan2 := fatan2
  log := flog
  pi := fpi

/-- Configuration of `outlier_search` (`radius_km=20, min_neighbors=10`
defaults in the source). -/
structure Config where
  radius_km : Frac
  min_neighbors : ℕ

/-- One row of the observation table, with the columns `outlier_search`
reads and the columns it creates (util.py lines 1869-1894).  `NaN`-able
float columns are `Option Frac`. -/
structure Obs where
  file1 : String
  file2 : String
  x1 : Frac
  y1 : Frac
  dx : Frac
  dy : Frac
  total_distance_km : Option Frac
  bear_deg : Option Frac
  bearing_rad : Option Frac := none
  b_sin : Option Frac := none
  b_cos : Option Frac := none
  scene : ℕ := 0
  outlier_category : String := "01"
  neighbor_indices : Option (List ℕ) := none
  neighbor_count : ℕ := 0
  distance_z_score : Option Frac := none
  bearing_z_score : Option Frac := none
deriving DecidableEq, Repr

/-- `NaN`-propagating unary arithmetic. -/
def nmap (f : Frac → Frac) : Option Frac → Option Frac := Option.map f

/-- `NaN`-propagating binary arithmetic. -/
def nmap2 (f : Frac → Frac → Frac) : Option Frac → Option Frac → Option Frac
  | some a, some b => some (f a b)
  | _, _ => none

/-- `np.nanmean`: mean ignoring `NaN`s, `NaN` when no value remains. -/
def nanmean (l : List (Option Frac)) : Option Frac :=
  let v := l.filterMap id
  if v.isEmpty then none
  else some ((v.foldr Frac.add (Frac.ofInt 0)).div (Frac.ofInt v.length))

/-- `np.nanstd`: population standard deviation ignoring `NaN`s. -/
def nanstd (ops : RealOps) (l : List (Option Frac)) : Option Frac :=
  match nanmean l with
  | none => none
  | some m =>
    nmap ops.sqrt (nanmean (l.map (nmap (fun x => (x.sub m).mul (x.sub m)))))

/-- `circular_mean` (util.py lines 1194-1196) as called inside the
loop: `arctan2(nanmean(sin a), nanmean(cos a))`. -/
def circularMean (ops : RealOps) (l : List (Option Frac)) : Option Frac :=
  nmap2 ops.atan2 (nanmean (l.map (nmap ops.sin))) (nanmean (l.map (nmap ops.cos)))

/-- `circular_std` (util.py lines 1199-1204) as called inside the loop:
`sqrt(-2 log (clip (sqrt (s² + c²)) 1e-12 1))`. -/
def circularStd (ops : RealOps) (l : List (Option Frac)) : Option Frac :=
  match nanmean (l.map (nmap ops.sin)), nanmean (l.map (nmap ops.cos)) with
  | some s, some c =>
    let R := ops.sqrt ((s.mul s).add (c.mul c))
    some (ops.sqrt
      ((Frac.ofInt (-2)).mul (ops.log (Frac.fclip R ⟨1, 10 ^ 12⟩ (Frac.ofInt 1)))))
  | _, _ => none

/-- Pool membership: `out_df['outlier_category'].isin(['00','01'])`
(util.py line 1903). -/
def inPool (o : Obs) : Bool :=
  o.outlier_category == "00" || o.outlier_category == "01"

/-- The closed-ball test of `cKDTree.query_ball_point(xy, r=radius_m)`
with `radius_m = radius_km * 1000` (squared form; both sides are
nonnegative, so this is the Euclidean-distance comparison). -/
def withinRadius (cfg : Config) (a b : Obs) : Bool :=
  let dx := a.x1.sub b.x1
  let dy := a.y1.sub b.y1
  let r := cfg.radius_km.mul (Frac.ofInt 1000)
  Frac.ble ((dx.mul dx).add (dy.mul dy)) (r.mul r)

/-- The neighbour set the scene loop (util.py lines 1922-1937) computes
for the pool member at global index `i` (row `o`): other pool members of
the same scene within the radius.  The source enumerates each scene's
pool rows, queries the k-d tree, and drops the member's own local index;
since the global indices of the enumerated rows are pairwise distinct,
dropping the local index is exactly dropping global index `i`. -/
def neighborsOf (cfg : Config) (S : List Obs) (i : ℕ) (o : Obs) : List (ℕ × Obs) :=
  S.enum.filter (fun e =>
    inPool e.2 && e.2.scene == o.scene && e.1 != i && withinRadius cfg e.2 o)

/-- Guarded z-score: `NaN` when the standard deviation is zero or
`NaN`, otherwise `deviation / std` (util.py lines 1964-1979). -/
def zScore (std deviation : Option Frac) : Option Frac :=
  match std with
  | none => none
  | some sd => if sd.isZero then none else nmap (fun d => d.div sd) deviation

/-- The wrap-around bearing residual
`arctan2(sin(cell - mean), cos(cell - mean))` (util.py lines 1969-1972). -/
def deltaBear (ops : RealOps) (cell mean : Option Frac) : Option Frac :=
  let diff := nmap2 Frac.sub cell mean
  nmap2 ops.atan2 (nmap ops.sin diff) (nmap ops.cos diff)

/-- The per-pool-member update of the scene loop (util.py lines
1938-1994): store the neighbour indices and count, and the rounded
distance/bearing z-scores; on an empty neighbour set store
`None/0/NaN/NaN` and continue. -/
def statsUpdate (ops : RealOps) (cfg : Config) (S : List Obs) (i : ℕ) (o : Obs) : Obs :=
  let neigh := neighborsOf cfg S i o
  if neigh.isEmpty then
    { o with neighbor_indices := none, neighbor_count := 0,
             distance_z_score := none, bearing_z_score := none }
  else
    let neigh_dist := neigh.map (fun e => e.2.total_distance_km)
    let neigh_bear := neigh.map (fun e => e.2.bearing_rad)
    let dist_z := zScore (nanstd ops neigh_dist)
      (nmap2 (fun cd dm => (cd.sub dm).fabs) o.total_distance_km (nanmean neigh_dist))
    let bear_z := zScore (circularStd ops neigh_bear)
      (nmap Frac.fabs (deltaBear ops o.bearing_rad (circularMean ops neigh_bear)))
    let neigh_out := (neigh.map (fun e => e.1)).filter (fun j => j != i)
    { o with neighbor_indices := some neigh_out,
             neighbor_count := neigh_out.length,
             distance_z_score := nmap Frac.round3 dist_z,
             bearing_z_score := nmap Frac.round3 bear_z }

/-- `NaN`-safe threshold test: `z > 3` is `False` on `NaN`. -/
def gt3 : Option Frac → Bool
  | some v => Frac.blt (Frac.ofInt 3) v
  | none => false

/-- The reason digit of `np.select` (util.py lines 2044-2056): `1` if
only the distance flag, `2` if only the bearing flag, `3` if both, else
`0`. -/
def reasonOf (dz bz : Option Frac) : ℕ :=
  let df := gt3 dz
  let bf := gt3 bz
  if df && !bf then 1 else if !df && bf then 2 else if df && bf then 3 else 0

/-- The confidence digit: `1` iff `neighbor_count >= min_neighbors`. -/
def confOf (cfg : Config) (n : ℕ) : ℕ := if cfg.min_neighbors ≤ n then 1 else 0

/-- `str(reason) + str(confidence)` (util.py lines 2057-2060). -/
def catString (r c : ℕ) : String := toString r ++ toString c

/-- The classification pass, applied to every row of the frame each
iteration. -/
def classifyObs (cfg : Config) (o : Obs) : Obs :=
  { o with outlier_category :=
      (catString (reasonOf o.distance_z_score o.bearing_z_score)
        (confOf cfg o.neighbor_count)) }

/-- One iteration of the convergence loop body (after the break test):
the scene loop updates the stored statistics of every pool member,
reading from the pool snapshot taken at the top of the iteration, and
the classifier then recomputes every row's category. -/
def stepState (ops : RealOps) (cfg : Config) (S : List Obs) : List Obs :=
  (S.enum.map fun e =>
      if inPool e.2 then statsUpdate ops cfg S e.1 e.2 else e.2).map
    (classifyObs cfg)

/-- `(out_df['outlier_category'] == '01').sum()` (util.py line 1904). -/
def inlierCount (S : List Obs) : ℕ :=
  S.countP (fun o => o.outlier_category == "01")

/-- The number of rows the pool filter keeps. -/
def poolCount (S : List Obs) : ℕ := S.countP inPool

/-- Kernel-computable character comparison (code-point order, the order
`String`'s `<` uses). -/
def charLt (a b : Char) : Bool := decide (a.val.toNat < b.val.toNat)

/-- Kernel-computable lexicographic strict order on strings. -/
def strLt : List Char → List Char → Bool
  | [], [] => false
  | [], _ :: _ => true
  | _ :: _, [] => false
  | a :: as, b :: bs =>
    if charLt a b then true else if charLt b a then false else strLt as bs

/-- Lexicographic key order of `sort_values(by=['File1','File2'])`
(total order: `a ≤ b` iff not `b < a`). -/
def keyLe (a b : Obs) : Bool :=
  strLt a.file1.data b.file1.data ||
    (a.file1 == b.file1 && !strLt b.file2.data a.file2.data)

def obsKey (o : Obs) : String × String := (o.file1, o.file2)

/-- The distinct `(File1, File2)` keys of the sorted frame, in order of
appearance — `groupby(['File1','File2'], sort=False).ngroup()` numbers
groups in this order. -/
def sceneKeys (sorted : List Obs) : List (String × String) :=
  (sorted.map obsKey).dedup

/-- Column initialisation of util.py lines 1882-1894: radian bearing and
its sine/cosine, default category `'01'`, empty neighbour state, `NaN`
z-scores, and the 1-based scene id. -/
def initObs (ops : RealOps) (keys : List (String × String)) (o : Obs) : Obs :=
  let br := nmap (fun d => (d.mul ops.pi).div (Frac.ofInt 180)) o.bear_deg
  { o with bearing_rad := br,
           b_sin := nmap ops.sin br,
           b_cos := nmap ops.cos br,
           scene := keys.indexOf (obsKey o) + 1,
           outlier_category := "01",
           neighbor_indices := none,
           neighbor_count := 0,
           distance_z_score := none,
           bearing_z_score := none }

/-- Stable insertion step for `sortObs`. -/
def insertObs (o : Obs) : List Obs → List Obs
  | [] => [o]
  | b :: bs => if keyLe o b then o :: b :: bs else b :: insertObs o bs

/-- Stable sort by `(File1, File2)` — the model of
`sort_values(by=['File1','File2'], ascending=True)` (a structural
insertion sort, so whole runs stay kernel-computable; on the frames with
pairwise-distinct or fully-equal keys used below it coincides with any
comparison sort). -/
def sortObs : List Obs → List Obs
  | [] => []
  | a :: as => insertObs a (sortObs as)

/-- The preprocessing of `outlier_search` before its loop: sort by
`(File1, File2)`, reset the index, add the derived columns. -/
def initState (ops : RealOps) (df : List Obs) : List Obs :=
  let sorted := sortObs df
  sorted.map (initObs ops (sceneKeys sorted))

/-- The state after `k` executed loop bodies (no break logic). -/
def iterState (ops : RealOps) (cfg : Config) (df : List Obs) : ℕ → List Obs
  | 0 => initState ops df
  | k + 1 => stepState ops cfg (iterState ops cfg df k)

/-- The loop of util.py lines 1900-1918 with its break logic: stop when
the current `'01'` count equals the previous iteration's. -/
def loopAux (ops : RealOps) (cfg : Config) : ℕ → List Obs → Option ℕ → List Obs
  | 0, S, _ => S
  | n + 1, S, prev =>
    if prev = some (inlierCount S) then S
    else loopAux ops cfg n (stepState ops cfg S) (some (inlierCount S))

/-- `outlier_search(df, config, ..., radius_km, min_neighbors,
iter_count)`: preprocessing followed by at most `iter_count` loop
bodies with the convergence break. -/
def outlier_search (ops : RealOps) (cfg : Config) (df : List Obs)
    (iter_count : ℕ) : List Obs :=
  loopAux ops cfg iter_count (initState ops df) none

instance : Inhabited Frac := ⟨Frac.ofInt 0⟩

instance : Inhabited Obs :=
  ⟨{ file1 := "", file2 := "", x1 := default, y1 := default, dx := default,
     dy := default, total_distance_km := none, bear_deg := none }⟩

/-- The row of the state at index `i` after `k` executed iterations
(default row out of range). -/
def obsAt (ops : RealOps) (cfg : Config) (df : List Obs) (k i : ℕ) : Obs :=
  (iterState ops cfg df k).getD i default

/-- The fields of a row that come from the input table. -/
def inputPart (o : Obs) :
    String × String × Frac × Frac × Frac × Frac × Option Frac × Option Frac :=
  (o.file1, o.file2, o.x1, o.y1, o.dx, o.dy, o.total_distance_km, o.bear_deg)

/-- The fields the neighbour predicate reads (all immutable across
iterations). -/
def geoPart (o : Obs) : ℕ × Frac × Frac := (o.scene, o.x1, o.y1)

/-- The mutable statistics fields the scene loop writes. -/
def storedPart (o : Obs) : Option (List ℕ) × ℕ × Option Frac × Option Frac :=
  (o.neighbor_indices, o.neighbor_count, o.distance_z_score, o.bearing_z_score)

/-- A row is coherent when its category is what the classifier computes
from its stored statistics — true of every row after any executed
iteration, since the classifier is the iteration's last pass. -/
def CoherentAt (cfg : Config) (o : Obs) : Prop :=
  o.outlier_category =
    catString (reasonOf o.distance_z_score o.bearing_z_score)
      (confOf cfg o.neighbor_count)

/-- Every reachable state is good: each row is either still carrying the
initial `'01'` default or is coherent. -/
def GoodAt (cfg : Config) (o : Obs) : Prop :=
  o.outlier_category = "01" ∨ CoherentAt cfg o

lemma inputPart_classify (cfg : Config) (o : Obs) :
    inputPart (classifyObs cfg o) = inputPart o := rfl

lemma geoPart_classify (cfg : Config) (o : Obs) :
    geoPart (classifyObs cfg o) = geoPart o := rfl

lemma storedPart_classify (cfg : Config) (o : Obs) :
    storedPart (classifyObs cfg o) = storedPart o := rfl

lemma cat_classify (cfg : Config) (o : Obs) :
    (classifyObs cfg o).outlier_category =
      catString (reasonOf o.distance_z_score o.bearing_z_score)
        (confOf cfg o.neighbor_count) := rfl

lemma coherent_classify (cfg : Config) (o : Obs) :
    CoherentAt cfg (classifyObs cfg o) := rfl

lemma inputPart_statsUpdate (ops : RealOps) (cfg : Config) (S : List Obs)
    (i : ℕ) (o : Obs) : inputPart (statsUpdate ops cfg S i o) = inputPart o := by
  simp only [statsUpdate]
  split <;> rfl

lemma geoPart_statsUpdate (ops : RealOps) (cfg : Config) (S : List Obs)
    (i : ℕ) (o : Obs) : geoPart (statsUpdate ops cfg S i o) = geoPart o := by
  simp only [statsUpdate]
  split <;> rfl

lemma length_stepState (ops : RealOps) (cfg : Config) (S : List Obs) :
    (stepState ops cfg S).length = S.length := by
  simp [stepState]

lemma get_stepState (ops : RealOps) (cfg : Config) (S : List Obs) (i : ℕ)
    (h : i < (stepState ops cfg S).length) (h' : i < S.length) :
    (stepState ops cfg S)[i] =
      classifyObs cfg
        (if inPool S[i] then statsUpdate ops cfg S i S[i] else S[i]) := by
  simp [stepState, List.getElem_map, List.getElem_enum]

lemma coherent_stepState (ops : RealOps) (cfg : Config) (S : List Obs) (i : ℕ)
    (h : i < (stepState ops cfg S).length) :
    CoherentAt cfg (stepState ops cfg S)[i] := by
  have h' : i < S.length := by
    have := length_stepState ops cfg S
    omega
  rw [get_stepState ops cfg S i h h']
  exact coherent_classify _ _

lemma reasonOf_cases (dz bz : Option Frac) :
    reasonOf dz bz = 0 ∨ reasonOf dz bz = 1 ∨ reasonOf dz bz = 2 ∨
      reasonOf dz bz = 3 := by
  unfold reasonOf
  cases gt3 dz <;> cases gt3 bz <;> simp

lemma confOf_cases (cfg : Config) (n : ℕ) :
    confOf cfg n = 0 ∨ confOf cfg n = 1 := by
  unfold confOf
  split <;> simp

lemma catString_eq_01 (dz bz : Option Frac) (cfg : Config) (n : ℕ) :
    catString (reasonOf dz bz) (confOf cfg n) = "01" ↔
      reasonOf dz bz = 0 ∧ confOf cfg n = 1 := by
  rcases reasonOf_cases dz bz with h | h | h | h <;>
    rcases confOf_cases cfg n with h2 | h2 <;>
      rw [h, h2] <;> simp <;> decide

lemma catString_eq_00 (dz bz : Option Frac) (cfg : Config) (n : ℕ) :
    catString (reasonOf dz bz) (confOf cfg n) = "00" ↔
      reasonOf dz bz = 0 ∧ confOf cfg n = 0 := by
  rcases reasonOf_cases dz bz with h | h | h | h <;>
    rcases confOf_cases cfg n with h2 | h2 <;>
      rw [h, h2] <;> simp <;> decide

lemma inPool_iff (o : Obs) :
    inPool o = true ↔ o.outlier_category = "00" ∨ o.outlier_category = "01" := by
  simp [inPool]

lemma count_classify (cfg : Config) (o : Obs) :
    (classifyObs cfg o).neighbor_count = o.neighbor_count := rfl

lemma stored_step_of_notPool (ops : RealOps) (cfg : Config) (S : List Obs)
    (i : ℕ) (h : i < (stepState ops cfg S).length) (h' : i < S.length)
    (hp : inPool S[i] = false) :
    storedPart (stepState ops cfg S)[i] = storedPart S[i] := by
  rw [get_stepState ops cfg S i h h', if_neg (by simp [hp]), storedPart_classify]

lemma cat_step_of_notPool (ops : RealOps) (cfg : Config) (S : List Obs)
    (i : ℕ) (h : i < (stepState ops cfg S).length) (h' : i < S.length)
    (hg : GoodAt cfg S[i]) (hp : inPool S[i] = false) :
    ((stepState ops cfg S)[i]).outlier_category = S[i].outlier_category := by
  rcases hg with hg | hg
  · exfalso
    have : inPool S[i] = true := by simp [inPool, hg]
    simp [this] at hp
  · rw [get_stepState ops cfg S i h h', if_neg (by simp [hp]), cat_classify]
    exact hg.symm

lemma countP_le_countP_pointwise {α β : Type} (p : α → Bool) (q : β → Bool) :
    ∀ (l : List α) (m : List β), l.length = m.length →
      (∀ i (h : i < m.length) (h' : i < l.length),
        q m[i] = true → p l[i] = true) →
      m.countP q ≤ l.countP p := by
  intro l
  induction l with
  | nil =>
    intro m hm _
    cases m with
    | nil => simp
    | cons b bs => simp at hm
  | cons a as ih =>
    intro m hm hpt
    cases m with
    | nil => simp
    | cons b bs =>
      have hlen : as.length = bs.length := by simpa using hm
      have htail : bs.countP q ≤ as.countP p := by
        refine ih bs hlen ?_
        intro i hi hi' hq
        have := hpt (i + 1) (by simpa using Nat.succ_lt_succ hi)
          (by simpa using Nat.succ_lt_succ hi') (by simpa using hq)
        simpa using this
      have hhead : q b = true → p a = true := by
        intro hq
        have := hpt 0 (by simp) (by simp) (by simpa using hq)
        simpa using this
      rw [List.countP_cons, List.countP_cons]
      by_cases hqb : q b = true
      · rw [hqb, hhead hqb]
        simpa using htail
      · have hbf : q b = false := by simpa using hqb
        rw [hbf]
        simp only [Bool.false_eq_true, if_false, Nat.add_zero]
        exact le_trans htail (by split <;> omega)

lemma mem_neighborsOf (cfg : Config) (S : List Obs) (i : ℕ) (o : Obs)
    (e : ℕ × Obs) :
    e ∈ neighborsOf cfg S i o ↔
      ∃ h : e.1 < S.length, e.2 = S[e.1] ∧ inPool e.2 = true ∧
        e.2.scene = o.scene ∧ e.1 ≠ i ∧ withinRadius cfg e.2 o = true := by
  unfold neighborsOf
  rw [List.mem_filter]
  constructor
  · rintro ⟨hmem, hpred⟩
    obtain ⟨h1, h2⟩ := List.mem_enum (show (e.1, e.2) ∈ S.enum by simpa using hmem)
    refine ⟨h1, h2, ?_⟩
    simp only [Bool.and_eq_true, beq_iff_eq, bne_iff_ne, ne_eq] at hpred
    tauto
  · rintro ⟨h, hval, hpool, hscene, hne, hrad⟩
    constructor
    · have hb : e.1 < S.enum.length := by
        simpa [List.enum_length] using h
      have henum : S.enum[e.1] = (e.1, S[e.1]) := List.getElem_enum S e.1 hb
      have hmem : (e.1, S[e.1]) ∈ S.enum := by
        rw [← henum]
        exact List.getElem_mem hb
      have heq : e = (e.1, S[e.1]) := by
        rw [Prod.ext_iff]
        exact ⟨rfl, hval⟩
      rw [heq]
      exact hmem
    · simp only [Bool.and_eq_true, beq_iff_eq, bne_iff_ne, ne_eq]
      tauto

lemma neighborsOf_fst_ne (cfg : Config) (S : List Obs) (i : ℕ) (o : Obs)
    (e : ℕ × Obs) (he : e ∈ neighborsOf cfg S i o) : e.1 ≠ i := by
  obtain ⟨_, _, _, _, hne, _⟩ := (mem_neighborsOf cfg S i o e).mp he
  exact hne

lemma count_step_of_inPool (ops : RealOps) (cfg : Config) (S : List Obs)
    (i : ℕ) (h : i < (stepState ops cfg S).length) (h' : i < S.length)
    (hp : inPool S[i] = true) :
    ((stepState ops cfg S)[i]).neighbor_count =
      (neighborsOf cfg S i S[i]).length := by
  rw [get_stepState ops cfg S i h h', if_pos hp, count_classify]
  simp only [statsUpdate]
  split
  · next hempty =>
    rw [List.isEmpty_iff.mp hempty]
    rfl
  · have hkeep : ((neighborsOf cfg S i S[i]).map
        (fun e => e.1)).filter (fun j => j != i) =
          (neighborsOf cfg S i S[i]).map (fun e => e.1) := by
      rw [List.filter_eq_self]
      intro a ha
      obtain ⟨e, he, rfl⟩ := List.mem_map.mp ha
      simpa using neighborsOf_fst_ne cfg S i _ e he
    simp [hkeep]

lemma cat_initState (ops : RealOps) (df : List Obs) (i : ℕ)
    (h : i < (initState ops df).length) :
    ((initState ops df)[i]).outlier_category = "01" := by
  simp only [initState, List.getElem_map]
  rfl

lemma good_iterState (ops : RealOps) (cfg : Config) (df : List Obs) (k i : ℕ)
    (h : i < (iterState ops cfg df k).length) :
    GoodAt cfg (iterState ops cfg df k)[i] := by
  cases k with
  | zero => exact Or.inl (cat_initState ops df i h)
  | succ k => exact Or.inr (coherent_stepState ops cfg _ i h)

lemma inPool_step_imp (ops : RealOps) (cfg : Config) (S : List Obs) (i : ℕ)
    (h : i < (stepState ops cfg S).length) (h' : i < S.length)
    (hg : GoodAt cfg S[i])
    (hp : inPool (stepState ops cfg S)[i] = true) :
    inPool S[i] = true := by
  by_contra hnp
  have hfalse : inPool S[i] = false := by
    simpa using hnp
  have hcat := cat_step_of_notPool ops cfg S i h h' hg hfalse
  rw [inPool_iff, hcat, ← inPool_iff] at hp
  simp [hfalse] at hp

lemma geoPart_step (ops : RealOps) (cfg : Config) (S : List Obs) (i : ℕ)
    (h : i < (stepState ops cfg S).length) (h' : i < S.length) :
    geoPart (stepState ops cfg S)[i] = geoPart S[i] := by
  rw [get_stepState ops cfg S i h h', geoPart_classify]
  split
  · rw [geoPart_statsUpdate]
  · rfl

lemma geoPart_scene {a b : Obs} (h : geoPart a = geoPart b) : a.scene = b.scene :=
  congrArg (fun t => t.1) h

lemma geoPart_x1 {a b : Obs} (h : geoPart a = geoPart b) : a.x1 = b.x1 :=
  congrArg (fun t => t.2.1) h

lemma geoPart_y1 {a b : Obs} (h : geoPart a = geoPart b) : a.y1 = b.y1 :=
  congrArg (fun t => t.2.2) h

lemma withinRadius_congr (cfg : Config) {a a' b b' : Obs}
    (ha : geoPart a = geoPart a') (hb : geoPart b = geoPart b') :
    withinRadius cfg a b = withinRadius cfg a' b' := by
  unfold withinRadius
  rw [geoPart_x1 ha, geoPart_y1 ha, geoPart_x1 hb, geoPart_y1 hb]

lemma neighborsOf_length_le (cfg : Config) (X Y : List Obs) (i : ℕ)
    (oX oY : Obs) (hlen : X.length = Y.length)
    (hgeo : ∀ j (hj : j < X.length) (hj' : j < Y.length),
      geoPart Y[j] = geoPart X[j])
    (hpool : ∀ j (hj : j < X.length) (hj' : j < Y.length),
      inPool Y[j] = true → inPool X[j] = true)
    (htarget : geoPart oY = geoPart oX) :
    (neighborsOf cfg Y i oY).length ≤ (neighborsOf cfg X i oX).length := by
  unfold neighborsOf
  rw [← List.countP_eq_length_filter, ← List.countP_eq_length_filter]
  refine countP_le_countP_pointwise _ _ X.enum Y.enum
    (by simp [List.enum_length, hlen]) ?_
  intro j hj hj' hq
  have hjY : j < Y.length := by simpa [List.enum_length] using hj
  have hjX : j < X.length := by simpa [List.enum_length] using hj'
  rw [List.getElem_enum] at hq ⊢
  simp only [Bool.and_eq_true, beq_iff_eq, bne_iff_ne, ne_eq] at hq ⊢
  obtain ⟨⟨⟨hq1, hq2⟩, hq3⟩, hq4⟩ := hq
  have hg := hgeo j hjX hjY
  refine ⟨⟨⟨hpool j hjX hjY hq1, ?_⟩, hq3⟩, ?_⟩
  · rw [← geoPart_scene hg, hq2, geoPart_scene htarget]
  · rw [withinRadius_congr cfg hg htarget] at hq4
    exact hq4

lemma confOf_zero_iff (cfg : Config) (n : ℕ) :
    confOf cfg n = 0 ↔ n < cfg.min_neighbors := by
  unfold confOf
  split <;> omega

lemma inlier_cat_step_step (ops : RealOps) (cfg : Config) (S : List Obs)
    (hgood : ∀ i (h : i < S.length), GoodAt cfg S[i]) (i : ℕ)
    (hB : i < (stepState ops cfg (stepState ops cfg S)).length)
    (hA : i < (stepState ops cfg S).length) (hS : i < S.length)
    (hcat : ((stepState ops cfg (stepState ops cfg S))[i]).outlier_category = "01") :
    ((stepState ops cfg S)[i]).outlier_category = "01" := by
  by_cases hpA : inPool (stepState ops cfg S)[i] = true
  · rcases (inPool_iff _).mp hpA with h00 | h01
    · exfalso
      have hcohA : CoherentAt cfg (stepState ops cfg S)[i] :=
        coherent_stepState ops cfg S i hA
      have h00' : catString
          (reasonOf ((stepState ops cfg S)[i]).distance_z_score
            ((stepState ops cfg S)[i]).bearing_z_score)
          (confOf cfg ((stepState ops cfg S)[i]).neighbor_count) = "00" := by
        rw [← hcohA]
        exact h00
      have hconf0 := ((catString_eq_00 _ _ _ _).mp h00').2
      have hltA : ((stepState ops cfg S)[i]).neighbor_count < cfg.min_neighbors :=
        (confOf_zero_iff cfg _).mp hconf0
      have hpS : inPool S[i] = true :=
        inPool_step_imp ops cfg S i hA hS (hgood i hS) hpA
      have hcA := count_step_of_inPool ops cfg S i hA hS hpS
      have hcB := count_step_of_inPool ops cfg (stepState ops cfg S) i hB hA hpA
      have hmono : (neighborsOf cfg (stepState ops cfg S) i
            (stepState ops cfg S)[i]).length ≤
          (neighborsOf cfg S i S[i]).length := by
        refine neighborsOf_length_le cfg S (stepState ops cfg S) i S[i]
          (stepState ops cfg S)[i] (length_stepState ops cfg S).symm ?_ ?_ ?_
        · intro j hj hj'
          exact geoPart_step ops cfg S j hj' hj
        · intro j hj hj' hp
          exact inPool_step_imp ops cfg S j hj' hj (hgood j hj) hp
        · exact geoPart_step ops cfg S i hA hS
      have hltB : ((stepState ops cfg (stepState ops cfg S))[i]).neighbor_count <
          cfg.min_neighbors := by
        omega
      have hcohB : CoherentAt cfg (stepState ops cfg (stepState ops cfg S))[i] :=
        coherent_stepState ops cfg _ i hB
      have h01' := (catString_eq_01 _ _ _ _).mp (by rw [← hcohB]; exact hcat)
      have := (confOf_zero_iff cfg _).mpr hltB
      omega
    · exact h01
  · have hfalse : inPool (stepState ops cfg S)[i] = false := by simpa using hpA
    have hsticky := cat_step_of_notPool ops cfg (stepState ops cfg S) i hB hA
      (Or.inr (coherent_stepState ops cfg S i hA)) hfalse
    rw [hsticky] at hcat
    exact hcat

lemma length_iterState (ops : RealOps) (cfg : Config) (df : List Obs) (k : ℕ) :
    (iterState ops cfg df k).length = (initState ops df).length := by
  induction k with
  | zero => rfl
  | succ k ih => rw [iterState, length_stepState, ih]

lemma inlierCount_iter_mono (ops : RealOps) (cfg : Config) (df : List Obs)
    (k : ℕ) :
    inlierCount (iterState ops cfg df (k + 1)) ≤
      inlierCount (iterState ops cfg df k) := by
  cases k with
  | zero =>
    have h1 : inlierCount (iterState ops cfg df 0) =
        (iterState ops cfg df 0).length := by
      unfold inlierCount
      rw [List.countP_eq_length]
      intro a ha
      obtain ⟨j, hj, rfl⟩ := List.mem_iff_getElem.mp ha
      simpa using cat_initState ops df j hj
    have h2 : inlierCount (iterState ops cfg df 1) ≤
        (iterState ops cfg df 1).length := List.countP_le_length _
    rw [h1]
    calc inlierCount (iterState ops cfg df 1) ≤
          (iterState ops cfg df 1).length := h2
      _ = (iterState ops cfg df 0).length := length_iterState ops cfg df 1
  | succ k =>
    unfold inlierCount
    refine countP_le_countP_pointwise _ _ (iterState ops cfg df (k + 1))
      (iterState ops cfg df (k + 2)) ?_ ?_
    · rw [length_iterState, length_iterState]
    · intro i hi hi' hq
      have hS : i < (iterState ops cfg df k).length := by
        rw [length_iterState]
        rw [length_iterState] at hi'
        exact hi'
      have hgood : ∀ j (h : j < (iterState ops cfg df k).length),
          GoodAt cfg (iterState ops cfg df k)[j] :=
        fun j h => good_iterState ops cfg df k j h
      have := inlier_cat_step_step ops cfg (iterState ops cfg df k) hgood i
        hi hi' hS (by simpa using hq)
      simpa using this

lemma inPool_congr_cat {a b : Obs}
    (h : a.outlier_category = b.outlier_category) : inPool a = inPool b := by
  unfold inPool
  rw [h]

lemma cat_persist (ops : RealOps) (cfg : Config) (df : List Obs) (k i : ℕ)
    (hi : i < (iterState ops cfg df k).length)
    (hno : inPool (iterState ops cfg df k)[i] = false) (d : ℕ) :
    ∀ (hd : i < (iterState ops cfg df (k + d)).length),
      ((iterState ops cfg df (k + d))[i]).outlier_category =
        ((iterState ops cfg df k)[i]).outlier_category := by
  induction d with
  | zero => intro hd; rfl
  | succ d ih =>
    intro hd
    have hlen : i < (iterState ops cfg df (k + d)).length := by
      rw [length_iterState]
      rw [length_iterState] at hi
      exact hi
    have hcat := ih hlen
    have hnod : inPool (iterState ops cfg df (k + d))[i] = false := by
      rw [inPool_congr_cat hcat]
      exact hno
    have hadd : (k + (d + 1)) = (k + d) + 1 := by omega
    have hd' : i < (iterState ops cfg df ((k + d) + 1)).length := by
      rw [← hadd]
      exact hd
    have hstep : ((iterState ops cfg df ((k + d) + 1))[i]).outlier_category =
        ((iterState ops cfg df (k + d))[i]).outlier_category :=
      cat_step_of_notPool ops cfg (iterState ops cfg df (k + d)) i
        (by simpa using hd') hlen
        (good_iterState ops cfg df (k + d) i hlen) hnod
    exact hstep.trans hcat

lemma ni_classify (cfg : Config) (o : Obs) :
    (classifyObs cfg o).neighbor_indices = o.neighbor_indices := rfl

lemma dz_classify (cfg : Config) (o : Obs) :
    (classifyObs cfg o).distance_z_score = o.distance_z_score := rfl

lemma bz_classify (cfg : Config) (o : Obs) :
    (classifyObs cfg o).bearing_z_score = o.bearing_z_score := rfl

lemma step_obs_pool (ops : RealOps) (cfg : Config) (S : List Obs) (i : ℕ)
    (h : i < (stepState ops cfg S).length) (h' : i < S.length)
    (hp : inPool S[i] = true) :
    (stepState ops cfg S)[i] = classifyObs cfg (statsUpdate ops cfg S i S[i]) := by
  rw [get_stepState ops cfg S i h h', if_pos hp]

lemma step_obs_notPool (ops : RealOps) (cfg : Config) (S : List Obs) (i : ℕ)
    (h : i < (stepState ops cfg S).length) (h' : i < S.length)
    (hp : inPool S[i] = false) :
    (stepState ops cfg S)[i] = classifyObs cfg S[i] := by
  rw [get_stepState ops cfg S i h h', if_neg (by simp [hp])]

lemma neighOut_filter_id (cfg : Config) (S : List Obs) (i : ℕ) (o : Obs) :
    ((neighborsOf cfg S i o).map (fun e => e.1)).filter (fun j => j != i) =
      (neighborsOf cfg S i o).map (fun e => e.1) := by
  rw [List.filter_eq_self]
  intro a ha
  obtain ⟨e, he, rfl⟩ := List.mem_map.mp ha
  simpa using neighborsOf_fst_ne cfg S i o e he

lemma mem_neighborsOf_fst (cfg : Config) (S : List Obs) (i : ℕ) (o : Obs)
    (j : ℕ) :
    j ∈ (neighborsOf cfg S i o).map (fun e => e.1) ↔
      ∃ hj : j < S.length, inPool S[j] = true ∧ S[j].scene = o.scene ∧
        j ≠ i ∧ withinRadius cfg S[j] o = true := by
  rw [List.mem_map]
  constructor
  · rintro ⟨e, he, rfl⟩
    obtain ⟨hj, hval, hpool, hscene, hne, hrad⟩ := (mem_neighborsOf cfg S i o e).mp he
    rw [hval] at hpool hscene hrad
    exact ⟨hj, hpool, hscene, hne, hrad⟩
  · rintro ⟨hj, hpool, hscene, hne, hrad⟩
    refine ⟨(j, S[j]), ?_, rfl⟩
    exact (mem_neighborsOf cfg S i o (j, S[j])).mpr ⟨hj, rfl, hpool, hscene, hne, hrad⟩

lemma nodup_neighborsOf_fst (cfg : Config) (S : List Obs) (i : ℕ) (o : Obs) :
    ((neighborsOf cfg S i o).map (fun e => e.1)).Nodup := by
  have hsub : (neighborsOf cfg S i o).Sublist S.enum := List.filter_sublist _
  have hsub2 : ((neighborsOf cfg S i o).map (fun e => e.1)).Sublist
      (S.enum.map (fun e => e.1)) := List.Sublist.map _ hsub
  have : (S.enum.map (fun e => e.1)).Nodup := by
    have := List.enum_map_fst S
    have heq : S.enum.map (fun e : ℕ × Obs => e.1) = S.enum.map Prod.fst := rfl
    rw [heq, this]
    exact List.nodup_range S.length
  exact List.Nodup.sublist hsub2 this

/-- The implicit bookkeeping invariant each reachable state satisfies at
every row: either no neighbour record (`None` and count `0`), or a
nonempty duplicate-free list of indices of *other* rows of the same
scene, with the count equal to its length. -/
def NeighborInv (S : List Obs) (i : ℕ) (o : Obs) : Prop :=
  (o.neighbor_indices = none ∧ o.neighbor_count = 0) ∨
  (∃ L, o.neighbor_indices = some L ∧ L ≠ [] ∧ L.Nodup ∧
    o.neighbor_count = L.length ∧
    ∀ j ∈ L, j ≠ i ∧ ∃ hj : j < S.length, S[j].scene = o.scene)

lemma neighborInv_congr {S T : List Obs} {i : ℕ} {o o' : Obs}
    (hlen : S.length = T.length)
    (hgeo : ∀ j (hj : j < S.length) (hj' : j < T.length),
      T[j].scene = S[j].scene)
    (hstored : storedPart o' = storedPart o) (hscene : o'.scene = o.scene)
    (hinv : NeighborInv S i o) : NeighborInv T i o' := by
  have hni : o'.neighbor_indices = o.neighbor_indices :=
    congrArg (fun t => t.1) hstored
  have hnc : o'.neighbor_count = o.neighbor_count :=
    congrArg (fun t => t.2.1) hstored
  rcases hinv with ⟨h1, h2⟩ | ⟨L, hL, hne, hnd, hcount, hmem⟩
  · exact Or.inl ⟨by rw [hni, h1], by rw [hnc, h2]⟩
  · refine Or.inr ⟨L, by rw [hni, hL], hne, hnd, by rw [hnc, hcount], ?_⟩
    intro j hj
    obtain ⟨hne', hjlt, hsc⟩ := hmem j hj
    have hjT : j < T.length := by omega
    refine ⟨hne', hjT, ?_⟩
    rw [hgeo j hjlt hjT, hsc, hscene]

lemma step_ni_of_inPool (ops : RealOps) (cfg : Config) (S : List Obs) (i : ℕ)
    (h : i < (stepState ops cfg S).length) (h' : i < S.length)
    (hp : inPool S[i] = true) :
    ((stepState ops cfg S)[i]).neighbor_indices =
      (if (neighborsOf cfg S i S[i]).isEmpty then none
       else some ((neighborsOf cfg S i S[i]).map (fun e => e.1))) := by
  rw [step_obs_pool ops cfg S i h h' hp, ni_classify]
  simp only [statsUpdate]
  by_cases hc : (neighborsOf cfg S i S[i]).isEmpty = true
  · simp [hc]
  · have hcf : (neighborsOf cfg S i S[i]).isEmpty = false := by simpa using hc
    simp [hcf, neighOut_filter_id]

lemma step_dz_of_inPool (ops : RealOps) (cfg : Config) (S : List Obs) (i : ℕ)
    (h : i < (stepState ops cfg S).length) (h' : i < S.length)
    (hp : inPool S[i] = true) :
    ((stepState ops cfg S)[i]).distance_z_score =
      (if (neighborsOf cfg S i S[i]).isEmpty then none
       else nmap Frac.round3 (zScore
        (nanstd ops ((neighborsOf cfg S i S[i]).map
          (fun e => e.2.total_distance_km)))
        (nmap2 (fun cd dm => (cd.sub dm).fabs) S[i].total_distance_km
          (nanmean ((neighborsOf cfg S i S[i]).map
            (fun e => e.2.total_distance_km)))))) := by
  rw [step_obs_pool ops cfg S i h h' hp, dz_classify]
  simp only [statsUpdate]
  by_cases hc : (neighborsOf cfg S i S[i]).isEmpty = true
  · simp [hc]
  · have hcf : (neighborsOf cfg S i S[i]).isEmpty = false := by simpa using hc
    simp [hcf]

lemma step_bz_of_inPool (ops : RealOps) (cfg : Config) (S : List Obs) (i : ℕ)
    (h : i < (stepState ops cfg S).length) (h' : i < S.length)
    (hp : inPool S[i] = true) :
    ((stepState ops cfg S)[i]).bearing_z_score =
      (if (neighborsOf cfg S i S[i]).isEmpty then none
       else nmap Frac.round3 (zScore
        (circularStd ops ((neighborsOf cfg S i S[i]).map
          (fun e => e.2.bearing_rad)))
        (nmap Frac.fabs (deltaBear ops S[i].bearing_rad
          (circularMean ops ((neighborsOf cfg S i S[i]).map
            (fun e => e.2.bearing_rad))))))) := by
  rw [step_obs_pool ops cfg S i h h' hp, bz_classify]
  simp only [statsUpdate]
  by_cases hc : (neighborsOf cfg S i S[i]).isEmpty = true
  · simp [hc]
  · have hcf : (neighborsOf cfg S i S[i]).isEmpty = false := by simpa using hc
    simp [hcf]

lemma neighborInv_iter (ops : RealOps) (cfg : Config) (df : List Obs) (k : ℕ) :
    ∀ i (h : i < (iterState ops cfg df k).length),
      NeighborInv (iterState ops cfg df k) i (iterState ops cfg df k)[i] := by
  induction k with
  | zero =>
    intro i h
    left
    constructor
    · simp only [iterState, initState, List.getElem_map]
      rfl
    · simp only [iterState, initState, List.getElem_map]
      rfl
  | succ k ih =>
    intro i h
    simp only [iterState] at h ⊢
    have h' : i < (iterState ops cfg df k).length := by
      have := length_stepState ops cfg (iterState ops cfg df k)
      omega
    have hgeo : ∀ j (hj : j < (iterState ops cfg df k).length)
        (hj' : j < (stepState ops cfg (iterState ops cfg df k)).length),
        (stepState ops cfg (iterState ops cfg df k))[j].scene =
          (iterState ops cfg df k)[j].scene := by
      intro j hj hj'
      exact geoPart_scene (geoPart_step ops cfg (iterState ops cfg df k) j hj' hj)
    have hlen : (iterState ops cfg df k).length =
        (stepState ops cfg (iterState ops cfg df k)).length :=
      (length_stepState ops cfg (iterState ops cfg df k)).symm
    by_cases hp : inPool (iterState ops cfg df k)[i] = true
    · have hni := step_ni_of_inPool ops cfg (iterState ops cfg df k) i h h' hp
      have hcount := count_step_of_inPool ops cfg (iterState ops cfg df k) i h h' hp
      have hsc : (stepState ops cfg (iterState ops cfg df k))[i].scene =
          (iterState ops cfg df k)[i].scene := hgeo i h' h
      by_cases hc :
          (neighborsOf cfg (iterState ops cfg df k) i
            (iterState ops cfg df k)[i]).isEmpty = true
      · left
        refine ⟨by rw [hni, if_pos hc], ?_⟩
        rw [hcount, List.isEmpty_iff.mp hc]
        rfl
      · right
        have hcf : (neighborsOf cfg (iterState ops cfg df k) i
            (iterState ops cfg df k)[i]).isEmpty = false := by simpa using hc
        refine ⟨(neighborsOf cfg (iterState ops cfg df k) i
            (iterState ops cfg df k)[i]).map (fun e => e.1),
          by rw [hni, hcf]; rfl, ?_,
          nodup_neighborsOf_fst cfg _ i _,
          by rw [hcount, List.length_map], ?_⟩
        · intro hnil
          rw [List.map_eq_nil_iff] at hnil
          rw [hnil] at hcf
          simp at hcf
        · intro j hj
          obtain ⟨hjlt, hpool, hscene, hne, hrad⟩ :=
            (mem_neighborsOf_fst cfg _ i _ j).mp hj
          have hjT : j < (stepState ops cfg (iterState ops cfg df k)).length := by
            omega
          refine ⟨hne, hjT, ?_⟩
          rw [hgeo j hjlt hjT, hscene, ← hsc]
    · have hpf : inPool (iterState ops cfg df k)[i] = false := by simpa using hp
      have hstep := step_obs_notPool ops cfg (iterState ops cfg df k) i h h' hpf
      have hinv := ih i h'
      refine neighborInv_congr hlen hgeo ?_ ?_ hinv
      · rw [show (stepState ops cfg (iterState ops cfg df k))[i] =
          classifyObs cfg (iterState ops cfg df k)[i] from hstep]
        exact storedPart_classify cfg _
      · rw [show (stepState ops cfg (iterState ops cfg df k))[i] =
          classifyObs cfg (iterState ops cfg df k)[i] from hstep]
        exact geoPart_scene (geoPart_classify cfg _)


lemma loopAux_stop (ops : RealOps) (cfg : Config) (n : ℕ) (S : List Obs)
    (c : ℕ) (h : inlierCount S = c) : loopAux ops cfg (n + 1) S (some c) = S := by
  unfold loopAux
  rw [if_pos (by rw [h])]

lemma inlierCount_le_poolCount (S : List Obs) : inlierCount S ≤ poolCount S := by
  unfold inlierCount poolCount
  refine countP_le_countP_pointwise _ _ S S rfl ?_
  intro i h h' hq
  rw [inPool]
  rw [hq]
  simp

lemma insertObs_perm (o : Obs) (l : List Obs) : (insertObs o l).Perm (o :: l) := by
  induction l with
  | nil => exact List.Perm.refl _
  | cons b bs ih =>
    unfold insertObs
    split
    · exact List.Perm.refl _
    · exact List.Perm.trans ((List.perm_cons b).mpr ih) (List.Perm.swap o b bs)

lemma sortObs_perm (l : List Obs) : (sortObs l).Perm l := by
  induction l with
  | nil => exact List.Perm.refl _
  | cons a as ih =>
    exact List.Perm.trans (insertObs_perm a (sortObs as))
      ((List.perm_cons a).mpr ih)

lemma inputPart_initObs (ops : RealOps) (keys : List (String × String))
    (o : Obs) : inputPart (initObs ops keys o) = inputPart o := rfl

lemma inputPart_map_step (ops : RealOps) (cfg : Config) (S : List Obs) :
    (stepState ops cfg S).map inputPart = S.map inputPart := by
  refine List.ext_getElem (by simp [length_stepState]) ?_
  intro n h1 h2
  have hn : n < S.length := by simpa using h2
  have hn' : n < (stepState ops cfg S).length := by
    rw [length_stepState]
    exact hn
  rw [List.getElem_map, List.getElem_map]
  rw [get_stepState ops cfg S n hn' hn, inputPart_classify]
  split
  · rw [inputPart_statsUpdate]
  · rfl

lemma inputPart_map_init (ops : RealOps) (df : List Obs) :
    (initState ops df).map inputPart = (sortObs df).map inputPart := by
  unfold initState
  rw [List.map_map]
  congr 1

lemma inputPart_map_iter (ops : RealOps) (cfg : Config) (df : List Obs) (k : ℕ) :
    (iterState ops cfg df k).map inputPart = (sortObs df).map inputPart := by
  induction k with
  | zero => exact inputPart_map_init ops df
  | succ k ih => rw [iterState, inputPart_map_step, ih]

lemma inputPart_map_loopAux (ops : RealOps) (cfg : Config) (n : ℕ) :
    ∀ (S : List Obs) (prev : Option ℕ),
      (loopAux ops cfg n S prev).map inputPart = S.map inputPart := by
  induction n with
  | zero => intro S prev; rfl
  | succ n ih =>
    intro S prev
    unfold loopAux
    by_cases hc : prev = some (inlierCount S)
    · rw [if_pos hc]
    · rw [if_neg hc, ih, inputPart_map_step]

/-! ## Real-number embedding of the circular statistics

`circular_mean` and `circular_std` (util.py lines 1194-1204) are pure
float functions; claims C8 and C9 are about their numerical values, so
they are embedded over idealised reals, with `NaN` as `Option.none`. -/

/-- `np.nanmean` over idealised reals: mean ignoring `NaN`s, `NaN` when
nothing remains. -/
noncomputable def nanmeanR (l : List (Option ℝ)) : Option ℝ :=
  if (l.filterMap id).isEmpty then none
  else some ((l.filterMap id).sum / (l.filterMap id).length)

/-- `np.arctan2` over idealised reals (standard quadrant definition). -/
noncomputable def arctan2 (y x : ℝ) : ℝ :=
  if 0 < x then Real.arctan (y / x)
  else if x < 0 ∧ 0 ≤ y then Real.arctan (y / x) + Real.pi
  else if x < 0 ∧ y < 0 then Real.arctan (y / x) - Real.pi
  else if x = 0 ∧ 0 < y then Real.pi / 2
  else if x = 0 ∧ y < 0 then -(Real.pi / 2)
  else 0

/-- `circular_mean(a) = np.arctan2(np.nanmean(np.sin(a)),
np.nanmean(np.cos(a)))`, `NaN`-propagating. -/
noncomputable def circular_mean (a : List (Option ℝ)) : Option ℝ :=
  (nanmeanR (a.map (Option.map Real.sin))).bind fun s =>
    (nanmeanR (a.map (Option.map Real.cos))).map fun c => arctan2 s c

/-- `circular_std(a) = sqrt(-2 log (clip (sqrt (s² + c²)) 1e-12 1))`
with `s`, `c` the `NaN`-ignoring means of `sin`/`cos`. -/
noncomputable def circular_std (a : List (Option ℝ)) : Option ℝ :=
  (nanmeanR (a.map (Option.map Real.sin))).bind fun s =>
    (nanmeanR (a.map (Option.map Real.cos))).map fun c =>
      Real.sqrt (-2 * Real.log (min (max (Real.sqrt (s * s + c * c)) (1 / 10 ^ 12)) 1))

lemma nanmeanR_all_none (a : List (Option ℝ)) (h : ∀ x ∈ a, x = none) :
    nanmeanR a = none := by
  unfold nanmeanR
  have hnil : a.filterMap id = [] := by
    rw [List.filterMap_eq_nil_iff]
    exact h
  simp [hnil]

lemma nanmeanR_map_all_none (f : ℝ → ℝ) (a : List (Option ℝ))
    (h : ∀ x ∈ a, x = none) : nanmeanR (a.map (Option.map f)) = none := by
  refine nanmeanR_all_none _ ?_
  intro x hx
  obtain ⟨y, hy, rfl⟩ := List.mem_map.mp hx
  rw [h y hy]
  rfl

lemma circular_mean_all_nan (a : List (Option ℝ)) (h : ∀ x ∈ a, x = none) :
    circular_mean a = none := by
  unfold circular_mean
  rw [nanmeanR_map_all_none Real.sin a h]
  rfl

lemma circular_mean_some (a : List (Option ℝ)) (s c : ℝ)
    (hs : nanmeanR (a.map (Option.map Real.sin)) = some s)
    (hc : nanmeanR (a.map (Option.map Real.cos)) = some c) :
    circular_mean a = some (arctan2 s c) := by
  unfold circular_mean
  rw [hs, hc]
  rfl

lemma circular_std_some (a : List (Option ℝ)) (s c : ℝ)
    (hs : nanmeanR (a.map (Option.map Real.sin)) = some s)
    (hc : nanmeanR (a.map (Option.map Real.cos)) = some c) :
    circular_std a = some (Real.sqrt (-2 * Real.log
      (min (max (Real.sqrt (s * s + c * c)) (1 / 10 ^ 12)) 1))) := by
  unfold circular_std
  rw [hs, hc]
  rfl

lemma nanmeanR_replicate (n : ℕ) (hn : 1 ≤ n) (x : ℝ) :
    nanmeanR (List.replicate n (some x)) = some x := by
  unfold nanmeanR
  have h1 : (List.replicate n (some x)).filterMap id = List.replicate n x := by
    induction n with
    | zero => rfl
    | succ m ih => simp [List.replicate_succ, List.filterMap_cons, ih]
  rw [h1]
  have h2 : (List.replicate n x).isEmpty = false := by
    cases n with
    | zero => omega
    | succ m => simp [List.replicate_succ]
  rw [h2]
  simp only [Bool.false_eq_true, if_false, List.sum_replicate, List.length_replicate]
  congr 1
  rw [nsmul_eq_mul]
  have hne : (n : ℝ) ≠ 0 := by
    have : n ≠ 0 := by omega
    exact_mod_cast this
  field_simp

lemma nanmeanR_map_replicate (f : ℝ → ℝ) (n : ℕ) (hn : 1 ≤ n) (x : ℝ) :
    nanmeanR ((List.replicate n (some x)).map (Option.map f)) = some (f x) := by
  rw [List.map_replicate]
  exact nanmeanR_replicate n hn (f x)

lemma circular_std_const (n : ℕ) (hn : 1 ≤ n) (x : ℝ) :
    circular_std (List.replicate n (some x)) = some 0 := by
  rw [circular_std_some _ (Real.sin x) (Real.cos x)
    (nanmeanR_map_replicate Real.sin n hn x)
    (nanmeanR_map_replicate Real.cos n hn x)]
  have hR : Real.sqrt (Real.sin x * Real.sin x + Real.cos x * Real.cos x) = 1 := by
    have h1 : Real.sin x * Real.sin x + Real.cos x * Real.cos x = 1 := by
      have := Real.sin_sq_add_cos_sq x
      nlinarith [this]
    rw [h1, Real.sqrt_one]
  rw [hR]
  have hmax : max (1 : ℝ) (1 / 10 ^ 12) = 1 := by
    rw [max_eq_left]
    norm_num
  rw [hmax]
  have hmin : min (1 : ℝ) 1 = 1 := min_self 1
  rw [hmin, Real.log_one]
  norm_num

lemma nanmeanR_isSome (a : List (Option ℝ)) (h : ∃ x ∈ a, x ≠ none) :
    ∃ m, nanmeanR a = some m := by
  unfold nanmeanR
  obtain ⟨x, hx, hxne⟩ := h
  obtain ⟨v, rfl⟩ := Option.ne_none_iff_exists'.mp hxne
  have hv : v ∈ a.filterMap id := by
    rw [List.mem_filterMap]
    exact ⟨some v, hx, rfl⟩
  have : a.filterMap id ≠ [] := List.ne_nil_of_mem hv
  have hne : (a.filterMap id).isEmpty = false := by
    rw [List.isEmpty_eq_false_iff_exists_mem]
    exact ⟨v, hv⟩
  rw [hne]
  simp

lemma nanmeanR_map_isSome (f : ℝ → ℝ) (a : List (Option ℝ))
    (h : ∃ x ∈ a, x ≠ none) :
    ∃ m, nanmeanR (a.map (Option.map f)) = some m := by
  refine nanmeanR_isSome _ ?_
  obtain ⟨x, hx, hxne⟩ := h
  obtain ⟨v, rfl⟩ := Option.ne_none_iff_exists'.mp hxne
  refine ⟨some (f v), List.mem_map.mpr ⟨some v, hx, rfl⟩, by simp⟩

lemma circular_std_bounded (a : List (Option ℝ)) (h : ∃ x ∈ a, x ≠ none) :
    ∃ v, circular_std a = some v ∧ 0 ≤ v ∧ v ≤ 15 := by
  obtain ⟨s, hs⟩ := nanmeanR_map_isSome Real.sin a h
  obtain ⟨c, hc⟩ := nanmeanR_map_isSome Real.cos a h
  refine ⟨_, circular_std_some a s c hs hc, Real.sqrt_nonneg _, ?_⟩
  set R := min (max (Real.sqrt (s * s + c * c)) (1 / 10 ^ 12)) 1 with hRdef
  have hRlb : (1 / 10 ^ 12 : ℝ) ≤ R := by
    rw [hRdef]
    refine le_min ?_ (by norm_num)
    exact le_max_right _ _
  have hRpos : (0 : ℝ) < 1 / 10 ^ 12 := by norm_num
  have hlog : Real.log (1 / 10 ^ 12) ≤ Real.log R := Real.log_le_log hRpos hRlb
  have hlog12 : Real.log (1 / 10 ^ 12 : ℝ) = -(12 * Real.log 10) := by
    rw [one_div, Real.log_inv, Real.log_pow]
    push_cast
    ring
  have hlog10 : Real.log 10 ≤ 9 := by
    have := Real.log_le_sub_one_of_pos (show (0:ℝ) < 10 by norm_num)
    linarith
  have harg : -2 * Real.log R ≤ 216 := by
    rw [hlog12] at hlog
    nlinarith
  calc Real.sqrt (-2 * Real.log R) ≤ Real.sqrt 216 := Real.sqrt_le_sqrt harg
    _ ≤ 15 := by
      rw [Real.sqrt_le_iff]
      norm_num

lemma sin_359_eq : Real.sin (359 * Real.pi / 180) = -Real.sin (1 * Real.pi / 180) := by
  have h : 359 * Real.pi / 180 = 2 * Real.pi - 1 * Real.pi / 180 := by ring
  rw [h, Real.sin_sub, Real.sin_two_pi, Real.cos_two_pi]
  ring

lemma cos_359_eq : Real.cos (359 * Real.pi / 180) = Real.cos (1 * Real.pi / 180) := by
  have h : 359 * Real.pi / 180 = 2 * Real.pi - 1 * Real.pi / 180 := by ring
  rw [h, Real.cos_sub, Real.sin_two_pi, Real.cos_two_pi]
  ring

lemma c8_mean_sin :
    nanmeanR ([some (1 * Real.pi / 180), some (359 * Real.pi / 180),
      some (2 * Real.pi / 180)].map (Option.map Real.sin)) =
      some (Real.sin (2 * Real.pi / 180) / 3) := by
  unfold nanmeanR
  simp only [List.map_cons, List.map_nil, Option.map_some', List.filterMap_cons, id_eq,
    List.filterMap_nil, List.isEmpty_cons, List.sum_cons, List.sum_nil, List.length_cons,
    List.length_nil]
  norm_num
  rw [sin_359_eq]
  ring_nf

lemma c8_mean_cos :
    nanmeanR ([some (1 * Real.pi / 180), some (359 * Real.pi / 180),
      some (2 * Real.pi / 180)].map (Option.map Real.cos)) =
      some ((2 * Real.cos (1 * Real.pi / 180) + Real.cos (2 * Real.pi / 180)) / 3) := by
  unfold nanmeanR
  simp only [List.map_cons, List.map_nil, Option.map_some', List.filterMap_cons, id_eq,
    List.filterMap_nil, List.isEmpty_cons, List.sum_cons, List.sum_nil, List.length_cons,
    List.length_nil]
  norm_num
  rw [cos_359_eq]
  ring_nf

set_option maxHeartbeats 1000000 in
lemma c8_concrete :
    ∃ θ, circular_mean [some (1 * Real.pi / 180), some (359 * Real.pi / 180),
        some (2 * Real.pi / 180)] = some θ ∧
      0.65 * Real.pi / 180 ≤ θ ∧ θ ≤ 0.69 * Real.pi / 180 := by
  have hπl : (3.141592 : ℝ) < Real.pi := Real.pi_gt_d6
  have hπu : Real.pi < 3.141593 := Real.pi_lt_d6
  -- numeric bounds on the angles
  have hz_lb : (0.0349065 : ℝ) ≤ 2 * Real.pi / 180 := by linarith
  have hz_ub : 2 * Real.pi / 180 ≤ (0.0349066 : ℝ) := by linarith
  have hx_ub : 1 * Real.pi / 180 ≤ (0.0174533 : ℝ) := by linarith
  have hx_pos : (0 : ℝ) < 1 * Real.pi / 180 := by linarith
  have hzpos : (0 : ℝ) < 2 * Real.pi / 180 := by linarith
  -- sin bounds
  have hsin_ub : Real.sin (2 * Real.pi / 180) ≤ 0.0349066 :=
    le_trans (Real.sin_lt hzpos).le hz_ub
  have hcube : (2 * Real.pi / 180) ^ 3 ≤ (0.0349066 : ℝ) ^ 3 :=
    pow_le_pow_left₀ (le_of_lt hzpos) hz_ub 3
  have hcube_num : ((0.0349066 : ℝ)) ^ 3 ≤ 0.0000426 := by norm_num
  have hsin_lb : (0.0348958 : ℝ) ≤ Real.sin (2 * Real.pi / 180) := by
    have h1 := Real.sin_gt_sub_cube hzpos (by linarith)
    linarith
  -- cos bounds
  have hxsq : (1 * Real.pi / 180) ^ 2 ≤ (0.0174533 : ℝ) ^ 2 :=
    pow_le_pow_left₀ (le_of_lt hx_pos) hx_ub 2
  have hxsq_num : ((0.0174533 : ℝ)) ^ 2 ≤ 0.0003047 := by norm_num
  have hzsq : (2 * Real.pi / 180) ^ 2 ≤ (0.0349066 : ℝ) ^ 2 :=
    pow_le_pow_left₀ (le_of_lt hzpos) hz_ub 2
  have hzsq_num : ((0.0349066 : ℝ)) ^ 2 ≤ 0.0012185 := by norm_num
  have hcos1_lb : (0.9998476 : ℝ) ≤ Real.cos (1 * Real.pi / 180) := by
    have := Real.one_sub_sq_div_two_le_cos (x := 1 * Real.pi / 180)
    linarith
  have hcos2_lb : (0.9993907 : ℝ) ≤ Real.cos (2 * Real.pi / 180) := by
    have := Real.one_sub_sq_div_two_le_cos (x := 2 * Real.pi / 180)
    linarith
  have hcos1_ub : Real.cos (1 * Real.pi / 180) ≤ 1 := Real.cos_le_one _
  have hcos2_ub : Real.cos (2 * Real.pi / 180) ≤ 1 := Real.cos_le_one _
  -- S and C bounds
  have hS_lb : (0.0116319 : ℝ) ≤ Real.sin (2 * Real.pi / 180) / 3 := by linarith
  have hS_ub : Real.sin (2 * Real.pi / 180) / 3 ≤ (0.0116356 : ℝ) := by linarith
  have hS_pos : (0 : ℝ) < Real.sin (2 * Real.pi / 180) / 3 := by linarith
  have hC_lb : (0.99969 : ℝ) ≤
      (2 * Real.cos (1 * Real.pi / 180) + Real.cos (2 * Real.pi / 180)) / 3 := by
    linarith
  have hC_ub : (2 * Real.cos (1 * Real.pi / 180) + Real.cos (2 * Real.pi / 180)) / 3 ≤ 1 := by
    linarith
  have hC_pos : (0 : ℝ) <
      (2 * Real.cos (1 * Real.pi / 180) + Real.cos (2 * Real.pi / 180)) / 3 := by
    linarith
  -- the ratio t = S / C
  have ht_lb : (0.0116319 : ℝ) ≤ (Real.sin (2 * Real.pi / 180) / 3) /
      ((2 * Real.cos (1 * Real.pi / 180) + Real.cos (2 * Real.pi / 180)) / 3) := by
    rw [le_div_iff₀ hC_pos]
    nlinarith [hS_lb, hC_ub, hC_pos]
  have ht_ub : (Real.sin (2 * Real.pi / 180) / 3) /
      ((2 * Real.cos (1 * Real.pi / 180) + Real.cos (2 * Real.pi / 180)) / 3) ≤
      (0.0116395 : ℝ) := by
    rw [div_le_iff₀ hC_pos]
    nlinarith [hS_ub, hC_lb]
  refine ⟨_, circular_mean_some _ _ _ c8_mean_sin c8_mean_cos, ?_, ?_⟩
  · -- lower bound 0.65 degrees
    have ha_ub : (0.65 : ℝ) * Real.pi / 180 ≤ 0.0113447 := by linarith
    have ha_pos : (0 : ℝ) < 0.65 * Real.pi / 180 := by linarith
    have hsin_a : Real.sin (0.65 * Real.pi / 180) ≤ 0.0113447 :=
      le_trans (Real.sin_lt ha_pos).le ha_ub
    have hasq : (0.65 * Real.pi / 180) ^ 2 ≤ (0.0113447 : ℝ) ^ 2 :=
      pow_le_pow_left₀ (le_of_lt ha_pos) ha_ub 2
    have hasq_num : ((0.0113447 : ℝ)) ^ 2 ≤ 0.000129 := by norm_num
    have hcos_a : (0.99993 : ℝ) ≤ Real.cos (0.65 * Real.pi / 180) := by
      have := Real.one_sub_sq_div_two_le_cos (x := 0.65 * Real.pi / 180)
      linarith
    have hsin_a_nonneg : 0 ≤ Real.sin (0.65 * Real.pi / 180) := by
      refine Real.sin_nonneg_of_nonneg_of_le_pi (le_of_lt ha_pos) ?_
      linarith
    have htan_a : Real.tan (0.65 * Real.pi / 180) ≤ 0.0113455 := by
      rw [Real.tan_eq_sin_div_cos]
      rw [div_le_iff₀ (by linarith)]
      nlinarith [hsin_a, hcos_a]
    have harctan : Real.arctan (Real.tan (0.65 * Real.pi / 180)) =
        0.65 * Real.pi / 180 := by
      refine Real.arctan_tan (by linarith) (by linarith)
    have harct2 : arctan2 (Real.sin (2 * Real.pi / 180) / 3)
        ((2 * Real.cos (1 * Real.pi / 180) + Real.cos (2 * Real.pi / 180)) / 3) =
        Real.arctan ((Real.sin (2 * Real.pi / 180) / 3) /
          ((2 * Real.cos (1 * Real.pi / 180) + Real.cos (2 * Real.pi / 180)) / 3)) := by
      unfold arctan2
      rw [if_pos hC_pos]
    rw [harct2]
    have hmono := Real.arctan_strictMono.monotone
      (show Real.tan (0.65 * Real.pi / 180) ≤
        (Real.sin (2 * Real.pi / 180) / 3) /
          ((2 * Real.cos (1 * Real.pi / 180) + Real.cos (2 * Real.pi / 180)) / 3) by
        linarith)
    rw [harctan] at hmono
    exact hmono
  · -- upper bound 0.69 degrees
    have hb_lb : (0.0120427 : ℝ) ≤ 0.69 * Real.pi / 180 := by linarith
    have hb_pos : (0 : ℝ) < 0.69 * Real.pi / 180 := by linarith
    have hb_lt : 0.69 * Real.pi / 180 < Real.pi / 2 := by linarith
    have htan_b : 0.69 * Real.pi / 180 < Real.tan (0.69 * Real.pi / 180) :=
      Real.lt_tan hb_pos hb_lt
    have harctan : Real.arctan (Real.tan (0.69 * Real.pi / 180)) =
        0.69 * Real.pi / 180 :=
      Real.arctan_tan (by linarith) hb_lt
    have harct2 : arctan2 (Real.sin (2 * Real.pi / 180) / 3)
        ((2 * Real.cos (1 * Real.pi / 180) + Real.cos (2 * Real.pi / 180)) / 3) =
        Real.arctan ((Real.sin (2 * Real.pi / 180) / 3) /
          ((2 * Real.cos (1 * Real.pi / 180) + Real.cos (2 * Real.pi / 180)) / 3)) := by
      unfold arctan2
      rw [if_pos hC_pos]
    rw [harct2]
    have hmono := Real.arctan_strictMono.monotone
      (show (Real.sin (2 * Real.pi / 180) / 3) /
          ((2 * Real.cos (1 * Real.pi / 180) + Real.cos (2 * Real.pi / 180)) / 3) ≤
        Real.tan (0.69 * Real.pi / 180) by linarith)
    rw [harctan] at hmono
    exact hmono


/-! ## Bridging lemmas and concrete runs used by the claim theorems -/

lemma obsAt_eq_getElem (ops : RealOps) (cfg : Config) (df : List Obs) (k i : ℕ)
    (h : i < (iterState ops cfg df k).length) :
    obsAt ops cfg df k i = (iterState ops cfg df k)[i] :=
  List.getD_eq_getElem _ _ h

lemma obsAt_default (ops : RealOps) (cfg : Config) (df : List Obs) (k i : ℕ)
    (h : (iterState ops cfg df k).length ≤ i) :
    obsAt ops cfg df k i = default :=
  List.getD_eq_default _ _ h

/-- The claim's reading of the reason digit: `3` if both flags, `1` if
only distance, `2` if only bearing, `0` otherwise. -/
def reasonSpec (df bf : Bool) : ℕ :=
  if df && bf then 3 else if df then 1 else if bf then 2 else 0

/-- The spec's reason table agrees with the `np.select` encoding of the
source. -/
lemma reasonSpec_eq_reasonOf (dz bz : Option Frac) :
    reasonSpec (gt3 dz) (gt3 bz) = reasonOf dz bz := by
  unfold reasonSpec reasonOf
  cases gt3 dz <;> cases gt3 bz <;> simp

/-- An input row from the concrete fields the engine reads. -/
def mkObs (f1 f2 : String) (x y d : ℤ) : Obs :=
  { file1 := f1, file2 := f2, x1 := Frac.ofInt x, y1 := Frac.ofInt y,
    dx := Frac.ofInt 0, dy := Frac.ofInt 0,
    total_distance_km := some (Frac.ofInt d), bear_deg := some (Frac.ofInt 0) }

/-- The source's default configuration (`radius_km=20, min_neighbors=10`). -/
def exCfg1 : Config := { radius_km := Frac.ofInt 20, min_neighbors := 10 }

/-- A one-row frame: the row has no neighbours, so after one iteration it
is categorised `"00"` — a pool member that is not a confident inlier. -/
def exDf1 : List Obs := [mkObs "a" "b" 0 0 5]

/-- Configuration for the masking cascade (`min_neighbors=11`). -/
def exCfg3 : Config := { radius_km := Frac.ofInt 20, min_neighbors := 11 }

/-- A twelve-row single-scene frame (all rows mutually within the radius,
all bearings `0`) whose distances form a masking cascade: `1000` is
flagged in iteration 1, `300` in iteration 2, `100` in iteration 3, and
`35` only in a fourth iteration — after the `'01'` count has already
stabilised at `0`. -/
def exDf3 : List Obs :=
  [mkObs "a" "b" 0 0 (-10), mkObs "a" "b" 1 0 (-10), mkObs "a" "b" 2 0 (-10),
   mkObs "a" "b" 3 0 (-10), mkObs "a" "b" 4 0 10, mkObs "a" "b" 5 0 10,
   mkObs "a" "b" 6 0 10, mkObs "a" "b" 7 0 10, mkObs "a" "b" 8 0 35,
   mkObs "a" "b" 9 0 100, mkObs "a" "b" 10 0 300, mkObs "a" "b" 11 0 1000]

/-- A two-row frame whose `File1` keys arrive out of sorted order. -/
def exDf6 : List Obs := [mkObs "b" "x" 0 0 5, mkObs "a" "x" 100000 0 7]

/-- A two-row single-scene frame whose rows are mutual neighbours. -/
def exDf5 : List Obs := [mkObs "a" "b" 0 0 5, mkObs "a" "b" 1 0 7]


/-! ## The claims -/

/-- C1 counterexample: the per-iteration inlier count does *not* equal
the size of the pool.  After the first iteration of a one-row run the
single row is categorised `"00"`: it is in the pool (reason digit `0`),
but `inlier_count` — which counts only `'01'` — is `0`, not `1`. -/
theorem c1_counterexample :
    poolCount (iterState ratOps exCfg1 exDf1 1) = 1 ∧
    inlierCount (iterState ratOps exCfg1 exDf1 1) = 0 ∧
    inlierCount (iterState ratOps exCfg1 exDf1 1) ≠
      poolCount (iterState ratOps exCfg1 exDf1 1) := by
  decide

/-- C1 amended: the per-iteration inlier count is the number of
observations whose category is exactly `'01'` (confident inliers); it is
at most — not in general equal to — the size of the pool, which also
contains the `'00'` rows; and when it equals the previous iteration's
count the loop stops at once, without rebuilding neighbours, recomputing
statistics, or reclassifying. -/
theorem c1_amended (ops : RealOps) (cfg : Config) (S : List Obs) (n c : ℕ)
    (h : inlierCount S = c) :
    inlierCount S = S.countP (fun o => o.outlier_category == "01") ∧
    inlierCount S ≤ poolCount S ∧
    loopAux ops cfg (n + 1) S (some c) = S :=
  ⟨rfl, inlierCount_le_poolCount S, loopAux_stop ops cfg n S c h⟩

theorem c1_amended_witness :
    inlierCount (iterState ratOps exCfg1 exDf1 1) =
      (iterState ratOps exCfg1 exDf1 1).countP
        (fun o => o.outlier_category == "01") ∧
    inlierCount (iterState ratOps exCfg1 exDf1 1) ≤
      poolCount (iterState ratOps exCfg1 exDf1 1) ∧
    loopAux ratOps exCfg1 3 (iterState ratOps exCfg1 exDf1 1) (some 0) =
      iterState ratOps exCfg1 exDf1 1 :=
  c1_amended ratOps exCfg1 (iterState ratOps exCfg1 exDf1 1) 2 0 (by decide)

/-- C2: for every input frame, configuration, and interpretation of the
numerical primitives, the `'01'` inlier count is non-increasing from each
executed iteration to the next; and a row that has left the pool (its
category is neither `"00"` nor `"01"`, i.e. its reason digit is nonzero)
keeps exactly the same category at every later iteration — it never
returns to a reason-`0` category. -/
theorem c2_monotonicity (ops : RealOps) (cfg : Config) (df : List Obs)
    (k d i : ℕ) :
    inlierCount (iterState ops cfg df (k + 1)) ≤
      inlierCount (iterState ops cfg df k) ∧
    (inPool (obsAt ops cfg df k i) = false →
      (obsAt ops cfg df (k + d) i).outlier_category =
        (obsAt ops cfg df k i).outlier_category) := by
  refine ⟨inlierCount_iter_mono ops cfg df k, ?_⟩
  intro hno
  by_cases hi : i < (iterState ops cfg df k).length
  · have hid : i < (iterState ops cfg df (k + d)).length := by
      rw [length_iterState]
      rw [length_iterState] at hi
      exact hi
    rw [obsAt_eq_getElem ops cfg df k i hi] at hno
    rw [obsAt_eq_getElem ops cfg df (k + d) i hid,
      obsAt_eq_getElem ops cfg df k i hi]
    exact cat_persist ops cfg df k i hi hno d hid
  · have hle : (iterState ops cfg df k).length ≤ i := by omega
    have hled : (iterState ops cfg df (k + d)).length ≤ i := by
      rw [length_iterState]
      rw [length_iterState] at hle
      exact hle
    rw [obsAt_default ops cfg df k i hle, obsAt_default ops cfg df (k + d) i hled]

theorem c2_monotonicity_witness :
    inlierCount (iterState ratOps exCfg3 exDf3 2) ≤
      inlierCount (iterState ratOps exCfg3 exDf3 1) ∧
    (obsAt ratOps exCfg3 exDf3 2 11).outlier_category =
      (obsAt ratOps exCfg3 exDf3 1 11).outlier_category :=
  ⟨(c2_monotonicity ratOps exCfg3 exDf3 1 1 11).1,
   (c2_monotonicity ratOps exCfg3 exDf3 1 1 11).2 (by decide)⟩

set_option maxRecDepth 200000 in
/-- C3 counterexample: the loop is *not* idempotent at its fixed point.
On the masking-cascade frame the `'01'` count is `0` at iterations 2 and
3 (so the loop reports CONVERGED and stops), yet one further iteration
still changes a category: row 8 (distance `35`) flips from `"00"` to
`"10"` once rows `100`, `300`, `1000` have left the pool. -/
theorem c3_counterexample :
    inlierCount (iterState ratOps exCfg3 exDf3 3) =
      inlierCount (iterState ratOps exCfg3 exDf3 2) ∧
    (iterState ratOps exCfg3 exDf3 4).map (fun o => o.outlier_category) ≠
      (iterState ratOps exCfg3 exDf3 3).map (fun o => o.outlier_category) := by
  decide

/-- C3 amended: once the loop has converged (the `'01'` count is
unchanged between two consecutive iterations), one additional iteration
changes no *flagged* observation's category (any row whose reason digit
is nonzero keeps its category exactly); a reason-`0` row's category may
still change, as the counterexample shows. -/
theorem c3_amended (ops : RealOps) (cfg : Config) (df : List Obs) (k i : ℕ)
    (_hconv : inlierCount (iterState ops cfg df (k + 1)) =
      inlierCount (iterState ops cfg df k))
    (hflag : inPool (obsAt ops cfg df (k + 1) i) = false) :
    (obsAt ops cfg df (k + 2) i).outlier_category =
      (obsAt ops cfg df (k + 1) i).outlier_category := by
  by_cases hi : i < (iterState ops cfg df (k + 1)).length
  · have hi2 : i < (iterState ops cfg df (k + 2)).length := by
      rw [length_iterState]
      rw [length_iterState] at hi
      exact hi
    rw [obsAt_eq_getElem ops cfg df (k + 1) i hi] at hflag
    rw [obsAt_eq_getElem ops cfg df (k + 2) i hi2,
      obsAt_eq_getElem ops cfg df (k + 1) i hi]
    exact cat_persist ops cfg df (k + 1) i hi hflag 1 hi2
  · have hle : (iterState ops cfg df (k + 1)).length ≤ i := by omega
    have hle2 : (iterState ops cfg df (k + 2)).length ≤ i := by
      rw [length_iterState]
      rw [length_iterState] at hle
      exact hle
    rw [obsAt_default ops cfg df (k + 1) i hle,
      obsAt_default ops cfg df (k + 2) i hle2]

set_option maxRecDepth 200000 in
theorem c3_amended_witness :
    (obsAt ratOps exCfg3 exDf3 4 11).outlier_category =
      (obsAt ratOps exCfg3 exDf3 3 11).outlier_category :=
  c3_amended ratOps exCfg3 exDf3 2 11 (by decide) (by decide)

/-- C4: after every executed iteration, every row's category is exactly
`str(reason) ++ str(confidence)`, where the reason digit follows the
claim's table (`3` both flags, `1` distance only, `2` bearing only, `0`
otherwise) applied to the flags `distance_z_score > 3` /
`bearing_z_score > 3`, the flags are `false` on `NaN` and otherwise test
the stored z-score against `3`, and the confidence digit is `1` iff
`neighbor_count ≥ min_neighbors`. -/
theorem c4_classifier (ops : RealOps) (cfg : Config) (df : List Obs) (k i : ℕ)
    (hi : i < (iterState ops cfg df (k + 1)).length) :
    ((iterState ops cfg df (k + 1))[i]).outlier_category =
      catString
        (reasonSpec (gt3 ((iterState ops cfg df (k + 1))[i]).distance_z_score)
          (gt3 ((iterState ops cfg df (k + 1))[i]).bearing_z_score))
        (if cfg.min_neighbors ≤ ((iterState ops cfg df (k + 1))[i]).neighbor_count
          then 1 else 0) ∧
    (∀ z : Option Frac, gt3 z = true ↔
      ∃ v, z = some v ∧ Frac.blt (Frac.ofInt 3) v = true) ∧
    gt3 (none : Option Frac) = false := by
  refine ⟨?_, ?_, rfl⟩
  · have hcoh : CoherentAt cfg (iterState ops cfg df (k + 1))[i] :=
      coherent_stepState ops cfg (iterState ops cfg df k) i hi
    rw [hcoh, reasonSpec_eq_reasonOf]
    rfl
  · intro z
    cases z with
    | none => simp [gt3]
    | some v => simp [gt3]

theorem c4_classifier_witness :
    (obsAt ratOps exCfg1 exDf1 1 0).outlier_category =
      catString
        (reasonSpec (gt3 (obsAt ratOps exCfg1 exDf1 1 0).distance_z_score)
          (gt3 (obsAt ratOps exCfg1 exDf1 1 0).bearing_z_score))
        (if exCfg1.min_neighbors ≤ (obsAt ratOps exCfg1 exDf1 1 0).neighbor_count
          then 1 else 0) ∧
    gt3 (none : Option Frac) = false := by
  have hb : 0 < (iterState ratOps exCfg1 exDf1 1).length := by
    rw [length_iterState]
    decide
  have h := c4_classifier ratOps exCfg1 exDf1 0 0 hb
  rw [obsAt_eq_getElem ratOps exCfg1 exDf1 1 0 hb]
  exact ⟨h.1, h.2.2⟩

/-- C5: in every iteration, the neighbour list recorded for a pool
member is exactly the set of *other* current pool members of the same
scene within squared Euclidean distance `(radius_km * 1000)²` of its
start position (closed ball, the member itself excluded), and the
recorded count is its size; the set is a function of the current pool
snapshot alone — rebuilt from scratch, not incrementally updated. -/
theorem c5_neighbors (ops : RealOps) (cfg : Config) (S : List Obs) (i : ℕ)
    (hi' : i < (stepState ops cfg S).length) (hi : i < S.length)
    (hp : inPool S[i] = true) (j : ℕ) :
    (j ∈ ((stepState ops cfg S)[i]).neighbor_indices.getD [] ↔
      ∃ hj : j < S.length, inPool S[j] = true ∧ S[j].scene = S[i].scene ∧
        j ≠ i ∧ withinRadius cfg S[j] S[i] = true) ∧
    ((stepState ops cfg S)[i]).neighbor_count =
      (neighborsOf cfg S i S[i]).length := by
  refine ⟨?_, count_step_of_inPool ops cfg S i hi' hi hp⟩
  rw [step_ni_of_inPool ops cfg S i hi' hi hp,
    ← mem_neighborsOf_fst cfg S i S[i] j]
  by_cases hc : (neighborsOf cfg S i S[i]).isEmpty = true
  · rw [if_pos hc, List.isEmpty_iff.mp hc]
    simp
  · have hcf : (neighborsOf cfg S i S[i]).isEmpty = false := by simpa using hc
    rw [if_neg (by simp [hcf])]
    simp

theorem c5_neighbors_witness :
    1 ∈ (obsAt ratOps exCfg1 exDf5 1 0).neighbor_indices.getD [] := by
  have hb0 : 0 < (iterState ratOps exCfg1 exDf5 0).length := by decide
  have hb1 : 1 < (iterState ratOps exCfg1 exDf5 0).length := by decide
  have hb : 0 < (iterState ratOps exCfg1 exDf5 1).length := by
    rw [length_iterState]
    decide
  have hp : inPool (iterState ratOps exCfg1 exDf5 0)[0] = true := by
    rw [← obsAt_eq_getElem ratOps exCfg1 exDf5 0 0 hb0]
    decide
  have hpool1 : inPool (iterState ratOps exCfg1 exDf5 0)[1] = true := by
    rw [← obsAt_eq_getElem ratOps exCfg1 exDf5 0 1 hb1]
    decide
  have hscene : (iterState ratOps exCfg1 exDf5 0)[1].scene =
      (iterState ratOps exCfg1 exDf5 0)[0].scene := by
    rw [← obsAt_eq_getElem ratOps exCfg1 exDf5 0 1 hb1,
      ← obsAt_eq_getElem ratOps exCfg1 exDf5 0 0 hb0]
    decide
  have hrad : withinRadius exCfg1 (iterState ratOps exCfg1 exDf5 0)[1]
      (iterState ratOps exCfg1 exDf5 0)[0] = true := by
    rw [← obsAt_eq_getElem ratOps exCfg1 exDf5 0 1 hb1,
      ← obsAt_eq_getElem ratOps exCfg1 exDf5 0 0 hb0]
    decide
  rw [obsAt_eq_getElem ratOps exCfg1 exDf5 1 0 hb]
  exact (c5_neighbors ratOps exCfg1 (iterState ratOps exCfg1 exDf5 0) 0
    (by rw [length_stepState]; exact hb0) hb0 hp 1).1.mpr
    ⟨hb1, hpool1, hscene, by decide, hrad⟩

/-- C7: degenerate neighbourhoods are not errors.  A pool member with an
empty neighbour set gets count `0`, `NaN` in both z-scores, and a
category with reason digit `0`; a zero or `NaN` local standard deviation
yields a `NaN` z-score; in every case the step function is total and the
values flow to the resulting state unchanged. -/
theorem c7_degenerate (ops : RealOps) (cfg : Config) (S : List Obs) (i : ℕ)
    (hi' : i < (stepState ops cfg S).length) (hi : i < S.length)
    (hp : inPool S[i] = true) :
    ((neighborsOf cfg S i S[i]).isEmpty = true →
      ((stepState ops cfg S)[i]).neighbor_count = 0 ∧
      ((stepState ops cfg S)[i]).distance_z_score = none ∧
      ((stepState ops cfg S)[i]).bearing_z_score = none ∧
      ((stepState ops cfg S)[i]).outlier_category = catString 0 (confOf cfg 0)) ∧
    (∀ dev : Option Frac, zScore none dev = none) ∧
    (∀ (sd : Frac) (dev : Option Frac), sd.isZero = true →
      zScore (some sd) dev = none) := by
  refine ⟨?_, fun dev => rfl, fun sd dev hz => by simp [zScore, hz]⟩
  intro hempty
  have hcount := count_step_of_inPool ops cfg S i hi' hi hp
  have hdz := step_dz_of_inPool ops cfg S i hi' hi hp
  have hbz := step_bz_of_inPool ops cfg S i hi' hi hp
  rw [if_pos hempty] at hdz hbz
  have hcount0 : ((stepState ops cfg S)[i]).neighbor_count = 0 := by
    rw [hcount, List.isEmpty_iff.mp hempty]
    rfl
  refine ⟨hcount0, hdz, hbz, ?_⟩
  have hcoh : CoherentAt cfg (stepState ops cfg S)[i] :=
    coherent_stepState ops cfg S i hi'
  rw [hcoh, hdz, hbz, hcount0]
  rfl

theorem c7_degenerate_witness :
    (obsAt ratOps exCfg1 exDf1 1 0).neighbor_count = 0 ∧
    (obsAt ratOps exCfg1 exDf1 1 0).distance_z_score = none ∧
    (obsAt ratOps exCfg1 exDf1 1 0).bearing_z_score = none ∧
    (obsAt ratOps exCfg1 exDf1 1 0).outlier_category =
      catString 0 (confOf exCfg1 0) := by
  have hb0 : 0 < (iterState ratOps exCfg1 exDf1 0).length := by decide
  have hb : 0 < (iterState ratOps exCfg1 exDf1 1).length := by
    rw [length_iterState]
    decide
  have hp : inPool (iterState ratOps exCfg1 exDf1 0)[0] = true := by
    rw [← obsAt_eq_getElem ratOps exCfg1 exDf1 0 0 hb0]
    decide
  have hempty : (neighborsOf exCfg1 (iterState ratOps exCfg1 exDf1 0) 0
      (iterState ratOps exCfg1 exDf1 0)[0]).isEmpty = true := by
    rw [← obsAt_eq_getElem ratOps exCfg1 exDf1 0 0 hb0]
    decide
  rw [obsAt_eq_getElem ratOps exCfg1 exDf1 1 0 hb]
  exact (c7_degenerate ratOps exCfg1 (iterState ratOps exCfg1 exDf1 0) 0
    (by rw [length_stepState]; exact hb0) hb0 hp).1 hempty

/-- C6 counterexample: the returned table is *not* in the original input
order — `outlier_search` sorts by `(File1, File2)` before its loop and
returns the sorted frame.  On a frame whose `File1` keys arrive as
`["b", "a"]` the output order is `["a", "b"]`. -/
theorem c6_counterexample :
    (outlier_search ratOps exCfg1 exDf6 1).map (fun o => o.file1) ≠
      exDf6.map (fun o => o.file1) := by
  decide

/-- C6 amended: the table returned by `outlier_search` holds the same
records as the input — every input field (identifiers, position,
kinematics) unchanged — but reordered by the `(File1, File2)` sort; the
loop itself mutates only the classification fields, writing back by
stable index, so the input projection of the result equals that of the
sorted frame and is a permutation of the input's. -/
theorem c6_amended (ops : RealOps) (cfg : Config) (df : List Obs) (n : ℕ) :
    (outlier_search ops cfg df n).map inputPart = (sortObs df).map inputPart ∧
    ((outlier_search ops cfg df n).map inputPart).Perm (df.map inputPart) := by
  have h1 : (outlier_search ops cfg df n).map inputPart =
      (sortObs df).map inputPart := by
    unfold outlier_search
    rw [inputPart_map_loopAux, inputPart_map_init]
  refine ⟨h1, ?_⟩
  rw [h1]
  exact List.Perm.map inputPart (sortObs_perm df)

/-- C8: `circular_mean` is `arctan2` of the `NaN`-ignoring means of the
sines and cosines, is `NaN` when every input is `NaN`, and on the
bearings `[1°, 359°, 2°]` its value lies in `[0.65°, 0.69°]` — it is
approximately `0.67°`, not approximately `120°`, handling the wrap at
`360°/0°`. -/
theorem c8_wraparound_mean :
    (∀ (a : List (Option ℝ)) (s c : ℝ),
      nanmeanR (a.map (Option.map Real.sin)) = some s →
      nanmeanR (a.map (Option.map Real.cos)) = some c →
      circular_mean a = some (arctan2 s c)) ∧
    (∀ a : List (Option ℝ), (∀ x ∈ a, x = none) → circular_mean a = none) ∧
    (∃ θ, circular_mean [some (1 * Real.pi / 180), some (359 * Real.pi / 180),
        some (2 * Real.pi / 180)] = some θ ∧
      0.65 * Real.pi / 180 ≤ θ ∧ θ ≤ 0.69 * Real.pi / 180) :=
  ⟨circular_mean_some, circular_mean_all_nan, c8_concrete⟩

theorem c8_wraparound_mean_witness :
    circular_mean (List.replicate 2 (some 0)) =
      some (arctan2 (Real.sin 0) (Real.cos 0)) ∧
    circular_mean ([none] : List (Option ℝ)) = none :=
  ⟨c8_wraparound_mean.1 (List.replicate 2 (some 0)) (Real.sin 0) (Real.cos 0)
      (nanmeanR_map_replicate Real.sin 2 (by norm_num) 0)
      (nanmeanR_map_replicate Real.cos 2 (by norm_num) 0),
   c8_wraparound_mean.2.1 [none] (by simp)⟩

/-- C9: `circular_std` is `sqrt(-2 ln R)` for the mean resultant length
`R = sqrt(s² + c²)` clamped to `[1e-12, 1]`; it is exactly `0` on any
nonempty list of identical angles, and on any input with at least one
non-`NaN` angle its value is a well-defined real in `[0, 15]` — finite,
never infinite or `NaN`, even when `R` sits at the clamp floor. -/
theorem c9_circular_std :
    (∀ (a : List (Option ℝ)) (s c : ℝ),
      nanmeanR (a.map (Option.map Real.sin)) = some s →
      nanmeanR (a.map (Option.map Real.cos)) = some c →
      circular_std a = some (Real.sqrt (-2 * Real.log
        (min (max (Real.sqrt (s * s + c * c)) (1 / 10 ^ 12)) 1)))) ∧
    (∀ (a : List (Option ℝ)) (x : ℝ), a ≠ [] → (∀ y ∈ a, y = some x) →
      circular_std a = some 0) ∧
    (∀ a : List (Option ℝ), (∃ x ∈ a, x ≠ none) →
      ∃ v, circular_std a = some v ∧ 0 ≤ v ∧ v ≤ 15) := by
  refine ⟨circular_std_some, ?_, circular_std_bounded⟩
  intro a x hne hall
  have hrep : a = List.replicate a.length (some x) :=
    List.eq_replicate_iff.mpr ⟨rfl, hall⟩
  rw [hrep]
  refine circular_std_const a.length ?_ x
  have := List.length_pos.mpr hne
  omega

theorem c9_circular_std_witness :
    circular_std [some 1, some 1, some 1] = some 0 ∧
    ∃ v, circular_std [some 0] = some v ∧ 0 ≤ v ∧ v ≤ 15 :=
  ⟨c9_circular_std.2.1 [some 1, some 1, some 1] 1 (by simp) (by simp),
   c9_circular_std.2.2 [some 0] ⟨some 0, by simp, by simp⟩⟩

/-- C10: after every executed iteration (and in the initial state),
every row either records no neighbours (`None` with count `0`) or
records a nonempty duplicate-free list of indices of other rows of the
same scene, never its own index, with `neighbor_count` equal to the
list's length. -/
theorem c10_bookkeeping (ops : RealOps) (cfg : Config) (df : List Obs)
    (k i : ℕ) (hi : i < (iterState ops cfg df k).length) :
    NeighborInv (iterState ops cfg df k) i (iterState ops cfg df k)[i] :=
  neighborInv_iter ops cfg df k i hi

theorem c10_bookkeeping_witness :
    NeighborInv (iterState ratOps exCfg1 exDf5 1) 0
      (obsAt ratOps exCfg1 exDf5 1 0) := by
  have hb : 0 < (iterState ratOps exCfg1 exDf5 1).length := by
    rw [length_iterState]
    decide
  rw [obsAt_eq_getElem ratOps exCfg1 exDf5 1 0 hb]
  exact c10_bookkeeping ratOps exCfg1 exDf5 1 0 hb

end SarDrift
